import Mathlib

/-!
Verification of the small example functions defined in the
functions-and-modules chapter of the repository: `square`, `hypot`,
`greeting`, the `vectools.py` module (`norm`, `unitvector` and its
entry-point guard), and `primes5`.

Modelling choices: Python numbers are real numbers, a numeric vector is a
list of reals, printing is an explicit output buffer of lines, and a raised
`ValueError` is the `Except.error` branch of an `Except` result.
-/

namespace FunctionsModules

open Classical

/-- Python `square(x) = x * x` from the chapter. -/
def square (x : ℝ) : ℝ := x * x

/-- Python `hypot(x, y) = math.sqrt(x * x + y * y)` from the chapter. -/
noncomputable def hypot (x y : ℝ) : ℝ := Real.sqrt (x * x + y * y)

/-- The single line printed by `greeting`, namely the text Hello World
followed by an exclamation mark. -/
def helloLine : String := "Hello World!"

/-- The Python `None` object, the value of a function without `return`. -/
inductive PyNone : Type where
  | none

/-- Python `greeting()`: prints the hello line and terminates without a
`return` statement, hence evaluates to `None`.  The print effect is
modelled by appending the printed line to the output buffer `out`. -/
def greeting (out : List String) : PyNone × List String :=
  (PyNone.none, out ++ [helloLine])

/-- Python `norm(x)` from `vectools.py`: `math.sqrt(sum(x ** 2))`, where
`x ** 2` squares the numpy vector componentwise. -/
noncomputable def norm (x : List ℝ) : ℝ :=
  Real.sqrt ((x.map fun a => a ^ 2).sum)

/-- The `ValueError` message raised by `unitvector` on a zero vector. -/
def zeroVectorMessage : String := "Can\x27t normalise vector with length 0"

/-- Python `unitvector(x)` from `vectools.py`: computes `xnorm = norm(x)`,
raises `ValueError` when `xnorm == 0`, and otherwise returns the
componentwise quotient `x / norm(x)`. -/
noncomputable def unitvector (x : List ℝ) : Except String (List ℝ) :=
  if norm x = 0 then Except.error zeroVectorMessage
  else Except.ok (x.map fun a => a / norm x)

/-- The string Python compares `__name__` against in the entry-point
guard of `vectools.py`: two underscores, `main`, two underscores. -/
def mainName : String := "__main__"

/-- The demo vector `N.array([0, 1, 2])` of the `vectools.py` main block. -/
def x1 : List ℝ := [0, 1, 2]

/-- Running the `vectools.py` module body with a given value of
`__name__`: the guarded demo block, which computes (and prints) the norm
and unit vector of `x1`, runs exactly when `__name__` equals `mainName`;
the result `Option.none` means the block was skipped and nothing beyond the
definitions was executed. -/
noncomputable def runVectoolsModule (name : String) :
    Option (ℝ × Except String (List ℝ)) :=
  if name = mainName then some (norm x1, unitvector x1) else none

/-- Python `primes5()` returning the fixed tuple `(2, 3, 5, 7, 11)`. -/
def primes5 : List ℕ := [2, 3, 5, 7, 11]

/-- Summing a mapped list equals the indexed sum over its positions. -/
theorem sum_map_get (f : ℝ → ℝ) (l : List ℝ) :
    (l.map f).sum = ∑ i : Fin l.length, f (l.get i) := by
  induction l with
  | nil => simp
  | cons a t ih =>
    simp only [List.map_cons, List.sum_cons, ih, List.length_cons,
      Fin.sum_univ_succ, List.get_cons_zero]
    rfl

/-- Reading a componentwise quotient at a valid index divides the entry. -/
theorem getD_map_div (c : ℝ) :
    ∀ (x : List ℝ) (i : ℕ), i < x.length →
      (x.map fun a => a / c).getD i 0 = x.getD i 0 / c := by
  intro x
  induction x with
  | nil =>
    intro i h
    simp at h
  | cons a t ih =>
    intro i h
    cases i with
    | zero => simp
    | succ n =>
      simp only [List.map_cons, List.getD_cons_succ]
      exact ih n (by simp only [List.length_cons] at h; omega)

/-- The demo vector has norm equal to the square root of five. -/
theorem norm_x1 : norm x1 = Real.sqrt 5 := by
  norm_num [norm, x1]

/-- The demo vector has nonzero norm. -/
theorem norm_x1_ne : norm x1 ≠ 0 := by
  rw [norm_x1]
  exact Real.sqrt_ne_zero'.mpr (by norm_num)

/-- Claim C1: `unitvector` signals a `ValueError` exactly when its input
has zero magnitude, and returns normally exactly when the magnitude is
nonzero. -/
theorem unitvector_error_iff_norm_zero (x : List ℝ) :
    ((∃ e, unitvector x = Except.error e) ↔ norm x = 0) ∧
    ((∃ u, unitvector x = Except.ok u) ↔ norm x ≠ 0) := by
  unfold unitvector
  by_cases h : norm x = 0
  · rw [if_pos h]
    simp [h]
  · rw [if_neg h]
    simp [h]

/-- Claim C2: `norm` computes the Euclidean norm, the square root of the
sum of the squares of the components. -/
theorem norm_eq_sqrt_sum_squares (x : List ℝ) :
    norm x = Real.sqrt (∑ i : Fin x.length, x.get i ^ 2) := by
  rw [norm, sum_map_get]

/-- Claim C3: on a vector of nonzero magnitude, `unitvector` returns
normally with a vector of the same length whose every component is the
corresponding component of the input divided by the norm. -/
theorem unitvector_eq_div_norm (x : List ℝ) (hx : norm x ≠ 0) :
    ∃ u, unitvector x = Except.ok u ∧ u.length = x.length ∧
      ∀ i, i < x.length → u.getD i 0 = x.getD i 0 / norm x := by
  refine ⟨x.map fun a => a / norm x, ?_, by simp, ?_⟩
  · unfold unitvector
    rw [if_neg hx]
  · intro i h
    exact getD_map_div (norm x) x i h

/-- Witness for claim C3 at the concrete vector `(0, 1, 2)`. -/
theorem unitvector_eq_div_norm_witness :
    norm x1 ≠ 0 ∧
    ∃ u, unitvector x1 = Except.ok u ∧ u.length = x1.length ∧
      ∀ i, i < x1.length → u.getD i 0 = x1.getD i 0 / norm x1 :=
  ⟨norm_x1_ne, unitvector_eq_div_norm x1 norm_x1_ne⟩

/-- Claim C4: `primes5` returns the fixed tuple `(2, 3, 5, 7, 11)`, which
is the increasing list of exactly the primes below twelve, i.e. the first
five prime numbers. -/
theorem primes5_spec :
    primes5 = [2, 3, 5, 7, 11] ∧ primes5.length = 5 ∧
    List.Sorted (· < ·) primes5 ∧
    (∀ p : ℕ, p ∈ primes5 ↔ Nat.Prime p ∧ p < 12) := by
  refine ⟨rfl, rfl, by decide, fun p => ?_⟩
  constructor
  · intro hp
    fin_cases hp <;> exact ⟨by norm_num, by norm_num⟩
  · rintro ⟨hp, h12⟩
    interval_cases p <;> revert hp <;> decide

/-- Claim C5: `square` multiplies its argument by itself, and squaring
three yields nine. -/
theorem square_spec :
    (∀ x : ℝ, square x = x * x) ∧ square 3 = 9 :=
  ⟨fun _ => rfl, by norm_num [square]⟩

/-- Claim C6: `hypot` returns the square root of the sum of the squares of
its two arguments. -/
theorem hypot_eq_sqrt_sq_add_sq (x y : ℝ) :
    hypot x y = Real.sqrt (x ^ 2 + y ^ 2) := by
  rw [hypot]
  congr 1
  ring

/-- Claim C7: the norm of the vector `(0, 1, 2)` is the square root of
five, approximately `2.236` (within one thousandth). -/
theorem norm_x1_approx :
    norm x1 = Real.sqrt 5 ∧ |norm x1 - 2.236| < 0.001 := by
  refine ⟨norm_x1, ?_⟩
  rw [norm_x1, abs_sub_lt_iff]
  constructor
  · have h : Real.sqrt 5 < 2.237 := by
      rw [show (2.237 : ℝ) = Real.sqrt (2.237 ^ 2) from
        (Real.sqrt_sq (by norm_num)).symm]
      exact Real.sqrt_lt_sqrt (by norm_num) (by norm_num)
    linarith
  · have h : (2.235 : ℝ) < Real.sqrt 5 := by
      rw [show (2.235 : ℝ) = Real.sqrt (2.235 ^ 2) from
        (Real.sqrt_sq (by norm_num)).symm]
      exact Real.sqrt_lt_sqrt (by norm_num) (by norm_num)
    linarith

/-- Claim C8: the guarded demo block of `vectools.py` runs exactly when
`__name__` equals the entry-point name `mainName`; when it runs it computes
the norm and unit vector of `x1`, and for any other module name the run
produces nothing. -/
theorem vectools_main_guard (name : String) :
    ((runVectoolsModule name).isSome ↔ name = mainName) ∧
    runVectoolsModule mainName = some (norm x1, unitvector x1) := by
  constructor
  · unfold runVectoolsModule
    by_cases h : name = mainName
    · rw [if_pos h]
      simp [h]
    · rw [if_neg h]
      simp [h]
  · unfold runVectoolsModule
    rw [if_pos rfl]

/-- Claim C9: `greeting` returns the `None` object and its only effect is
to append the hello line to the output. -/
theorem greeting_spec (out : List String) :
    (greeting out).1 = PyNone.none ∧ (greeting out).2 = out ++ [helloLine] :=
  ⟨rfl, rfl⟩

/-- Claim C10: `hypot` is commutative in its two arguments. -/
theorem hypot_comm (x y : ℝ) : hypot x y = hypot y x := by
  unfold hypot
  congr 1
  ring

end FunctionsModules
